import Mathlib

/-!
# Verification of the expense-tracker CLI (src/scripts/expense-tracker.js)

A shallow embedding of the program.  Conventions:

* JavaScript numbers are modelled as exact rationals (amounts) and integers
  (identifiers, months, years).  `NaN` results of the JS parsing functions
  are modelled as `none`.  The special JS values `Infinity`/`-Infinity`
  (which `parseFloat` can produce from the literal text "Infinity") are not
  modelled; amounts are exact rationals and number-to-string conversion is
  the exact-rational printer `ratToString`, deterministic but not
  byte-identical to the JS double printer.  No claim compares two distinct
  numeric renderings, so this does not affect any claim.
* The persisted expense file is modelled as the in-memory list of records:
  every command loads it, optionally produces a new list, and saves it.  A
  thrown JS error is modelled as `Except.error`; since every `saveExpenses`
  call in the source is only reached after all validation, the persisted
  store after a failing command is the original list (the `run*` wrappers
  make this explicit).
* `getArgValue` returns `null` (here `none`) when the flag is absent or is
  the last token; JS truthiness of the returned string means handlers treat
  `some ""` exactly like `none` wherever the source tests `if (value)`.
* Character-level string functions (`trim`, `toLowerCase`, whitespace) are
  modelled for the ASCII range used by the program; the exotic Unicode
  whitespace that JS additionally strips is not modelled.
* Dates are the ISO strings produced by `formatDate`; `new Date(s)` applied
  to a record date followed by `getFullYear()` / `getMonth()` is modelled
  by field extraction from the "YYYY-MM-DD" string, assuming a UTC
  environment (the source result is timezone-dependent).  Strings that are
  not of that shape make `new Date` invalid, and an invalid date fails
  every month-filter comparison, modelled by `parseIsoDate = none`.
-/

/-! ## JS primitive string and number semantics -/

/-- ASCII whitespace accepted by the JS `parseInt` / `parseFloat` / `trim`
prefix skipping (the further Unicode space characters of JS are not
modelled). -/
def jsWhitespace (c : Char) : Bool :=
  c == ' ' || c == '\t' || c == '\n' || c == '\r' || c == '\x0b' || c == '\x0c'

/-- Decimal value of a digit string read most-significant first. -/
def natOfDigits (l : List Char) : Nat :=
  l.foldl (fun n c => n * 10 + (c.toNat - 48)) 0

/-- Value of a hexadecimal digit, `none` for non-hex characters. -/
def hexVal (c : Char) : Option Nat :=
  if c.isDigit then some (c.toNat - 48)
  else if 'a' ≤ c && c ≤ 'f' then some (c.toNat - 87)
  else if 'A' ≤ c && c ≤ 'F' then some (c.toNat - 55)
  else none

def isHexDigit (c : Char) : Bool :=
  (hexVal c).isSome

def natOfHexDigits (l : List Char) : Nat :=
  l.foldl (fun n c => n * 16 + ((hexVal c).getD 0)) 0

/-- `Number.parseInt(s)` with no radix argument: skip whitespace, optional
sign, auto-detected hexadecimal prefix `0x`/`0X`, else the longest decimal
digit prefix; `none` models the `NaN` result when no digit is consumed. -/
def jsParseInt (s : String) : Option Int :=
  let cs := s.toList.dropWhile jsWhitespace
  let signed : Int × List Char :=
    match cs with
    | '-' :: r => (-1, r)
    | '+' :: r => (1, r)
    | _ => (1, cs)
  match signed.2 with
  | '0' :: 'x' :: r =>
      let ds := r.takeWhile isHexDigit
      if ds.isEmpty then none else some (signed.1 * (natOfHexDigits ds : Int))
  | '0' :: 'X' :: r =>
      let ds := r.takeWhile isHexDigit
      if ds.isEmpty then none else some (signed.1 * (natOfHexDigits ds : Int))
  | rest =>
      let ds := rest.takeWhile Char.isDigit
      if ds.isEmpty then none else some (signed.1 * (natOfDigits ds : Int))

/-- Exponent part of a JS float literal: sign and digits; an exponent with
no digits is not consumed by `parseFloat`, contributing factor `10 ^ 0`. -/
def jsParseExp (l : List Char) : Int :=
  let signed : Int × List Char :=
    match l with
    | '-' :: r => (-1, r)
    | '+' :: r => (1, r)
    | _ => (1, l)
  let ds := signed.2.takeWhile Char.isDigit
  if ds.isEmpty then 0 else signed.1 * (natOfDigits ds : Int)

/-- `Number.parseFloat(s)`: longest prefix of the form
`[ws] [sign] digits [. digits] [e [sign] digits]`; `none` models `NaN`
(no digit consumed).  The `Infinity` literal is not modelled. -/
def jsParseFloat (s : String) : Option ℚ :=
  let cs := s.toList.dropWhile jsWhitespace
  let signed : ℚ × List Char :=
    match cs with
    | '-' :: r => (-1, r)
    | '+' :: r => (1, r)
    | _ => (1, cs)
  let intPart := signed.2.takeWhile Char.isDigit
  let rest1 := signed.2.dropWhile Char.isDigit
  let fracSplit : List Char × List Char :=
    match rest1 with
    | '.' :: r => (r.takeWhile Char.isDigit, r.dropWhile Char.isDigit)
    | _ => ([], rest1)
  if intPart.isEmpty && fracSplit.1.isEmpty then none
  else
    let mant : ℚ :=
      (natOfDigits intPart : ℚ) +
        (natOfDigits fracSplit.1 : ℚ) / ((10 : ℚ) ^ fracSplit.1.length)
    let expVal : Int :=
      match fracSplit.2 with
      | 'e' :: r => jsParseExp r
      | 'E' :: r => jsParseExp r
      | _ => 0
    let scaled : ℚ :=
      if 0 ≤ expVal then mant * ((10 : ℚ) ^ expVal.toNat)
      else mant / ((10 : ℚ) ^ (-expVal).toNat)
    some (signed.1 * scaled)

/-- `String.prototype.trim` for ASCII whitespace. -/
def jsTrim (s : String) : String :=
  String.mk (((s.toList.dropWhile jsWhitespace).reverse.dropWhile jsWhitespace).reverse)

/-- `String.prototype.toLowerCase` (ASCII case mapping). -/
def jsToLower (s : String) : String :=
  String.mk (s.toList.map Char.toLower)

/-- `String.prototype.padEnd(n)` with the default space filler. -/
def padEnd (s : String) (n : Nat) : String :=
  s ++ String.mk (List.replicate (n - s.length) ' ')

/-- Exact printer for the rational model of JS numbers (stands in for the
JS number-to-string conversion in template literals). -/
def ratToString (q : ℚ) : String :=
  if q.den = 1 then toString q.num else toString q.num ++ "/" ++ toString q.den

/-! ## Data model -/

/-- One expense record, the object built by `addExpense`. -/
structure Expense where
  id : Int
  date : String
  description : String
  amount : ℚ
  category : String
deriving Repr, DecidableEq

/-- The enumerated error kinds of the spec, one per distinct `throw` message
of the source: `missingArg f` for the per-flag "X is required (--flag)"
messages, `invalidAmount` for "Amount must be a positive number",
`notFound id` for "Expense with ID id not found", `invalidMonth` for
"Month must be a number between 1 and 12", and `missingMonthAmount` for the
combined budget message "Both --month and --amount are required". -/
inductive JsError where
  | missingArg (flag : String)
  | invalidAmount
  | notFound (id : String)
  | invalidMonth
  | missingMonthAmount
deriving Repr, DecidableEq

/-! ## Utility functions of the source -/

/-- `getArgValue(args, flag)`: value following the first occurrence of the
flag, `null` when the flag is absent or has no following token
(`index + 1 < args.length` fails). -/
def getArgValue : List String → String → Option String
  | [], _ => none
  | [_], _ => none
  | x :: y :: rest, flag => if x = flag then some y else getArgValue (y :: rest) flag

/-- `Math.max(...expenses.map(e => e.id))` for a non-empty list (the source
guards the empty case in `getNextId`). -/
def maxIdOf : List Expense → Int
  | [] => 0
  | e :: es => es.foldl (fun m x => max m x.id) e.id

/-- `getNextId(expenses)`. -/
def getNextId (expenses : List Expense) : Int :=
  if expenses.length > 0 then maxIdOf expenses + 1 else 1

/-- `validateAmount(amount)`: `parseFloat`, then reject `NaN` and values
`<= 0`. -/
def validateAmount (amount : String) : Except JsError ℚ :=
  match jsParseFloat amount with
  | none => .error .invalidAmount
  | some num => if num ≤ 0 then .error .invalidAmount else .ok num

/-- First index whose record has the given id
(`expenses.findIndex(e => e.id === n)`, with `none` for `-1`). -/
def findIdxById : List Expense → Int → Option Nat
  | [], _ => none
  | e :: es, n => if e.id = n then some 0 else (findIdxById es n).map (· + 1)

/-- First record with the given id (`expenses.find(e => e.id === n)`). -/
def findFirstById : List Expense → Int → Option Expense
  | [], _ => none
  | e :: es, n => if e.id = n then some e else findFirstById es n

/-- Replace the first record with the given id (models the in-place
mutation of the object returned by `find`). -/
def setFirstById : List Expense → Int → Expense → List Expense
  | [], _, _ => []
  | e :: es, n, e2 => if e.id = n then e2 :: es else e :: setFirstById es n e2

/-- `findExpenseById(expenses, id)`: `parseInt` the requested id (a `NaN`
result matches no record) and throw `notFound` when no record matches. -/
def findExpenseById (expenses : List Expense) (id : String) : Except JsError Expense :=
  match jsParseInt id with
  | none => .error (.notFound id)
  | some n =>
    match findFirstById expenses n with
    | none => .error (.notFound id)
    | some e => .ok e

/-- Year, month, day of an ISO "YYYY-MM-DD" date string as read back by
`new Date(s).getFullYear()` / `.getMonth() + 1` in a UTC environment;
`none` models an invalid date, which fails every comparison. -/
def parseIsoDate (s : String) : Option (Int × Nat × Nat) :=
  match (s.splitOn "-").map String.toNat? with
  | [some y, some m, some d] =>
    if 1 ≤ m && m ≤ 12 && 1 ≤ d && d ≤ 31 then some ((y : Int), m, d) else none
  | _ => none

/-- The month-filter predicate of `showSummary` and `setBudget`: the record
date falls in the given year and 1-based month. -/
def dateMatchesMonth (e : Expense) (year : Int) (monthNum : Int) : Bool :=
  match parseIsoDate e.date with
  | some (y, m, _) => y == year && (m : Int) == monthNum
  | none => false

/-- `formatCurrency(amount)`. -/
def formatCurrency (amount : ℚ) : String :=
  "$" ++ ratToString amount

def monthNames : List String :=
  ["January", "February", "March", "April", "May", "June", "July",
   "August", "September", "October", "November", "December"]

/-! ## Command handlers

Each handler is split into the argument extraction (the `getArgValue`
`const` lines, done by the top-level wrapper) and the handler body
(the `*Core` definition).  The body returns `Except JsError` together with
the lines printed by `console.log` and, for mutating commands, the record
list passed to `saveExpenses`. -/

/-- Body of `addExpense` after the `getArgValue` lines; `category` includes
the source's `|| "General"` default for a falsy extraction result.  `today`
is `formatDate(new Date())`. -/
def addExpenseCore (description amount category : Option String)
    (expenses : List Expense) (today : String) :
    Except JsError (List Expense × List String) :=
  let cat : String :=
    match category with
    | some c => if c = "" then "General" else c
    | none => "General"
  match description with
  | none => .error (.missingArg "--description")
  | some d =>
    if d = "" then .error (.missingArg "--description")
    else
      match amount with
      | none => .error (.missingArg "--amount")
      | some a =>
        if a = "" then .error (.missingArg "--amount")
        else
          match validateAmount a with
          | .error err => .error err
          | .ok q =>
            let expense : Expense :=
              { id := getNextId expenses, date := today,
                description := jsTrim d, amount := q, category := jsTrim cat }
            .ok (expenses ++ [expense],
                 ["Expense added successfully (ID: " ++ toString expense.id ++ ")"])

/-- `if (description) expense.description = description.trim()`. -/
def applyDescriptionArg (e : Expense) (description : Option String) : Expense :=
  match description with
  | some s => if s = "" then e else { e with description := jsTrim s }
  | none => e

/-- `if (amount) expense.amount = validateAmount(amount)`; the validation
throw aborts the handler. -/
def applyAmountArg (e : Expense) (amount : Option String) : Except JsError Expense :=
  match amount with
  | some s =>
    if s = "" then .ok e
    else
      match validateAmount s with
      | .error err => .error err
      | .ok q => .ok { e with amount := q }
  | none => .ok e

/-- `if (category) expense.category = category.trim()`. -/
def applyCategoryArg (e : Expense) (category : Option String) : Expense :=
  match category with
  | some s => if s = "" then e else { e with category := jsTrim s }
  | none => e

/-- Body of `updateExpense`: required id, `findExpenseById` lookup (inlined
`parseInt` + first-match search so that the in-place mutation of the found
object can be rendered as `setFirstById`), then the three conditional field
assignments in source order. -/
def updateExpenseCore (id description amount category : Option String)
    (expenses : List Expense) :
    Except JsError (List Expense × List String) :=
  match id with
  | none => .error (.missingArg "--id")
  | some s =>
    if s = "" then .error (.missingArg "--id")
    else
      match jsParseInt s with
      | none => .error (.notFound s)
      | some n =>
        match findFirstById expenses n with
        | none => .error (.notFound s)
        | some e =>
          match applyAmountArg (applyDescriptionArg e description) amount with
          | .error err => .error err
          | .ok e2 =>
            let e3 := applyCategoryArg e2 category
            .ok (setFirstById expenses n e3,
                 ["Expense updated successfully (ID: " ++ s ++ ")"])

/-- Body of `deleteExpense`: required id, `findIndex` + `splice(index, 1)`. -/
def deleteExpenseCore (id : Option String) (expenses : List Expense) :
    Except JsError (List Expense × List String) :=
  match id with
  | none => .error (.missingArg "--id")
  | some s =>
    if s = "" then .error (.missingArg "--id")
    else
      let idx : Option Nat :=
        match jsParseInt s with
        | none => none
        | some n => findIdxById expenses n
      match idx with
      | none => .error (.notFound s)
      | some i => .ok (expenses.eraseIdx i, ["Expense deleted successfully"])

def listHeader1 : String :=
  "ID  Date       Description                Amount    Category"

def listHeader2 : String :=
  "--  ---------- -------------------------- --------- ----------"

/-- One table line of `listExpenses`. -/
def expenseRow (e : Expense) : String :=
  padEnd (toString e.id) 2 ++ "  " ++ padEnd e.date 10 ++ " " ++
    padEnd e.description 26 ++ " " ++ padEnd (formatCurrency e.amount) 9 ++
    e.category

/-- Body of `listExpenses`: optional case-insensitive category filter, the
"No expenses found" message for an empty result, else the fixed-width
table. -/
def listExpensesCore (category : Option String) (expenses : List Expense) :
    List String :=
  let filtered : List Expense :=
    match category with
    | some c =>
      if c = "" then expenses
      else expenses.filter (fun e => jsToLower e.category == jsToLower c)
    | none => expenses
  if filtered.isEmpty then ["No expenses found"]
  else listHeader1 :: listHeader2 :: filtered.map expenseRow

/-- `filteredExpenses.reduce((sum, e) => sum + e.amount, 0)`. -/
def sumAmounts (l : List Expense) : ℚ :=
  l.foldl (fun s e => s + e.amount) 0

/-- `categoryTotals[cat] = (categoryTotals[cat] || 0) + amount` on a plain
object: add to the existing key, keeping its position, or append a new key
(object keys enumerate in insertion order). -/
def bumpAssoc : List (String × ℚ) → String → ℚ → List (String × ℚ)
  | [], k, v => [(k, v)]
  | (k2, v2) :: rest, k, v =>
    if k2 = k then (k2, v2 + v) :: rest else (k2, v2) :: bumpAssoc rest k v

/-- The per-category totals object of `showSummary`. -/
def categoryTotals (l : List Expense) : List (String × ℚ) :=
  l.foldl (fun acc e => bumpAssoc acc e.category e.amount) []

/-- Stable insertion into a descending-by-amount list: the new pair passes
a resident pair only when the resident amount is strictly greater, so equal
amounts keep their original relative order. -/
def insertDesc (p : String × ℚ) : List (String × ℚ) → List (String × ℚ)
  | [] => [p]
  | q :: qs => if p.2 < q.2 then q :: insertDesc p qs else p :: q :: qs

/-- `Object.entries(categoryTotals).sort(([, a], [, b]) => b - a)`:
a stable sort by descending amount (ES Array.prototype.sort is stable),
rendered as stable insertion sort. -/
def sortCatDesc (l : List (String × ℚ)) : List (String × ℚ) :=
  l.foldr insertDesc []

/-- Total line plus, for a non-empty result, the category breakdown; the
tail of `showSummary` when no category filter is active (`!category`). -/
def noCatTail (label : String) (f : List Expense) : List String :=
  let head := label ++ ": " ++ formatCurrency (sumAmounts f)
  if f.isEmpty then [head]
  else
    head :: "\nBreakdown by category:" ::
      (sortCatDesc (categoryTotals f)).map
        (fun p => "  " ++ p.1 ++ ": " ++ formatCurrency p.2)

/-- Lines of `showSummary` after the month handling: the category filter
and label suffix when the category argument is truthy, then the total and
the conditional breakdown. -/
def summaryTail (label : String) (filteredExpenses : List Expense)
    (category : Option String) : List String :=
  match category with
  | some c =>
    if c = "" then noCatTail label filteredExpenses
    else
      let f2 := filteredExpenses.filter
        (fun e => jsToLower e.category == jsToLower c)
      [label ++ " (" ++ c ++ ")" ++ ": " ++ formatCurrency (sumAmounts f2)]
  | none => noCatTail label filteredExpenses

/-- Body of `showSummary`: optional month filter (validated when truthy,
restricting to the current year and that month), then `summaryTail`.
`currentYear` is `new Date().getFullYear()`. -/
def showSummaryCore (month category : Option String) (expenses : List Expense)
    (currentYear : Int) : Except JsError (List String) :=
  match month with
  | some mo =>
    if mo = "" then .ok (summaryTail "Total expenses" expenses category)
    else
      match jsParseInt mo with
      | none => .error .invalidMonth
      | some n =>
        if n < 1 || 12 < n then .error .invalidMonth
        else
          .ok (summaryTail
                ("Total expenses for " ++ monthNames.getD (n - 1).toNat "")
                (expenses.filter (fun e => dateMatchesMonth e currentYear n))
                category)
  | none => .ok (summaryTail "Total expenses" expenses category)

/-- `budgets[key] = amount` on a plain object: overwrite in place or append
a new key. -/
def setAssoc : List (String × ℚ) → String → ℚ → List (String × ℚ)
  | [], k, v => [(k, v)]
  | (k2, v2) :: rest, k, v =>
    if k2 = k then (k2, v) :: rest else (k2, v2) :: setAssoc rest k v

/-- Body of `setBudget`: both flags required (one combined message), month
validated, amount validated, budget stored under "year-month", then the
current spending of (current year, month) compared against the budget. -/
def setBudgetCore (month amount : Option String) (budgets : List (String × ℚ))
    (currentYear : Int) (expenses : List Expense) :
    Except JsError (List (String × ℚ) × List String) :=
  let truthyMonth : Bool := match month with | some m => m != "" | none => false
  let truthyAmount : Bool := match amount with | some a => a != "" | none => false
  if !truthyMonth || !truthyAmount then .error .missingMonthAmount
  else
    match jsParseInt (month.getD "") with
    | none => .error .invalidMonth
    | some n =>
      if n < 1 || 12 < n then .error .invalidMonth
      else
        match validateAmount (amount.getD "") with
        | .error err => .error err
        | .ok q =>
          let key := toString currentYear ++ "-" ++ toString n
          let budgets2 := setAssoc budgets key q
          let l1 := "Budget set for " ++ monthNames.getD (n - 1).toNat "" ++
            ": " ++ formatCurrency q
          let spending := sumAmounts
            (expenses.filter (fun e => dateMatchesMonth e currentYear n))
          let l2 :=
            if q < spending then
              "⚠️  WARNING: You have exceeded your budget by " ++
                formatCurrency (spending - q)
            else "💰 Remaining budget: " ++ formatCurrency (q - spending)
          .ok (budgets2, [l1, l2])

def csvHeader : String :=
  "ID,Date,Description,Amount,Category\n"

/-- One CSV row: id, date, quoted description (no further escaping),
amount, category. -/
def csvRow (e : Expense) : String :=
  toString e.id ++ "," ++ e.date ++ ",\"" ++ e.description ++ "\"," ++
    ratToString e.amount ++ "," ++ e.category

/-- `rows.join("\n")`. -/
def joinNl : List String → String
  | [] => ""
  | [x] => x
  | x :: y :: rest => x ++ "\n" ++ joinNl (y :: rest)

/-- The `|| "expenses.csv"` default of `exportToCsv` (falsy extraction
result replaced by the default name). -/
def defaultedFilename (file : Option String) : String :=
  match file with
  | some f => if f = "" then "expenses.csv" else f
  | none => "expenses.csv"

/-- Body of `exportToCsv`: printed lines together with the optional
`writeFileSync` effect as (filename, content); `none` when no write
occurs. -/
def exportToCsvCore (file : Option String) (expenses : List Expense) :
    List String × Option (String × String) :=
  let filename := defaultedFilename file
  if expenses.isEmpty then (["No expenses to export"], none)
  else
    (["Expenses exported to " ++ filename],
     some (filename, csvHeader ++ joinNl (expenses.map csvRow)))

/-! ## Top-level wrappers: the `getArgValue` extraction lines -/

def addExpense (args : List String) (expenses : List Expense) (today : String) :
    Except JsError (List Expense × List String) :=
  addExpenseCore (getArgValue args "--description") (getArgValue args "--amount")
    (getArgValue args "--category") expenses today

def updateExpense (args : List String) (expenses : List Expense) :
    Except JsError (List Expense × List String) :=
  updateExpenseCore (getArgValue args "--id") (getArgValue args "--description")
    (getArgValue args "--amount") (getArgValue args "--category") expenses

def deleteExpense (args : List String) (expenses : List Expense) :
    Except JsError (List Expense × List String) :=
  deleteExpenseCore (getArgValue args "--id") expenses

def listExpenses (args : List String) (expenses : List Expense) : List String :=
  listExpensesCore (getArgValue args "--category") expenses

def showSummary (args : List String) (expenses : List Expense)
    (currentYear : Int) : Except JsError (List String) :=
  showSummaryCore (getArgValue args "--month") (getArgValue args "--category")
    expenses currentYear

def setBudget (args : List String) (budgets : List (String × ℚ))
    (currentYear : Int) (expenses : List Expense) :
    Except JsError (List (String × ℚ) × List String) :=
  setBudgetCore (getArgValue args "--month") (getArgValue args "--amount")
    budgets currentYear expenses

def exportToCsv (args : List String) (expenses : List Expense) :
    List String × Option (String × String) :=
  exportToCsvCore (getArgValue args "--file") expenses

/-! ## Persisted-store view of one invocation

`saveExpenses` is only reached when the handler body does not throw, so the
persisted record list after an invocation is the handler result on success
and the original list on error. -/

def runAddCore (d a c : Option String) (es : List Expense) (t : String) :
    List Expense :=
  match addExpenseCore d a c es t with
  | .ok (es2, _) => es2
  | .error _ => es

def runUpdateCore (i d a c : Option String) (es : List Expense) : List Expense :=
  match updateExpenseCore i d a c es with
  | .ok (es2, _) => es2
  | .error _ => es

def runDeleteCore (i : Option String) (es : List Expense) : List Expense :=
  match deleteExpenseCore i es with
  | .ok (es2, _) => es2
  | .error _ => es

/-- One add request: description, amount, category arguments and the
stamped date of the invocation. -/
structure AddReq where
  description : Option String
  amount : Option String
  category : Option String
  today : String

/-- The persisted store after a sequence of `add` invocations (failed adds
leave the store unchanged). -/
def applyAdds (reqs : List AddReq) (es : List Expense) : List Expense :=
  reqs.foldl (fun cur r => runAddCore r.description r.amount r.category cur r.today) es

/-- JS truthiness of an extracted argument value: `null` and the empty
string are falsy, every other string is truthy. -/
def truthyOpt (o : Option String) : Bool :=
  match o with
  | some s => s != ""
  | none => false

/-! ## Helper lemmas -/

theorem le_foldl_max (l : List Expense) (b : Int) :
    b ≤ l.foldl (fun m x => max m x.id) b := by
  induction l generalizing b with
  | nil => exact le_refl b
  | cons e t ih => exact le_trans (le_max_left b e.id) (ih (max b e.id))

theorem mem_le_foldl_max (l : List Expense) (b : Int) (x : Expense)
    (hx : x ∈ l) : x.id ≤ l.foldl (fun m x => max m x.id) b := by
  induction l generalizing b with
  | nil => cases hx
  | cons e t ih =>
    rcases List.mem_cons.mp hx with h | h
    · subst h
      exact le_trans (le_max_right b x.id) (le_foldl_max t (max b x.id))
    · exact ih (max b e.id) h

theorem mem_le_maxIdOf (es : List Expense) (x : Expense) (hx : x ∈ es) :
    x.id ≤ maxIdOf es := by
  cases es with
  | nil => cases hx
  | cons e t =>
    rcases List.mem_cons.mp hx with h | h
    · subst h
      exact le_foldl_max t x.id
    · exact mem_le_foldl_max t e.id x h

theorem getNextId_eq (es : List Expense) :
    getNextId es = if es = [] then 1 else maxIdOf es + 1 := by
  cases es with
  | nil => simp [getNextId]
  | cons e t => simp [getNextId]

theorem getNextId_not_mem (es : List Expense) (x : Expense) (hx : x ∈ es) :
    x.id ≠ getNextId es := by
  cases es with
  | nil => cases hx
  | cons e t =>
    have hle : x.id ≤ maxIdOf (e :: t) := mem_le_maxIdOf (e :: t) x hx
    have h2 : getNextId (e :: t) = maxIdOf (e :: t) + 1 := by simp [getNextId]
    rw [h2]
    exact ne_of_lt (lt_of_le_of_lt hle (lt_add_one _))

theorem addExpenseCore_ok_shape (d a c : Option String) (es : List Expense)
    (t : String) (es2 : List Expense) (logs : List String)
    (h : addExpenseCore d a c es t = .ok (es2, logs)) :
    ∃ e : Expense, es2 = es ++ [e] ∧ e.id = getNextId es := by
  unfold addExpenseCore at h
  rcases d with _ | ds
  · exact absurd h (by simp)
  · simp only at h
    by_cases hd : ds = ""
    · rw [if_pos hd] at h
      cases h
    · rw [if_neg hd] at h
      rcases a with _ | as
      · cases h
      · simp only at h
        by_cases ha : as = ""
        · rw [if_pos ha] at h
          cases h
        · rw [if_neg ha] at h
          rcases hv : validateAmount as with err | q
          · rw [hv] at h
            cases h
          · rw [hv] at h
            simp only [Except.ok.injEq, Prod.mk.injEq] at h
            exact ⟨_, h.1.symm, rfl⟩

theorem runAddCore_nodup (d a c : Option String) (es : List Expense)
    (t : String) (h : (es.map Expense.id).Nodup) :
    ((runAddCore d a c es t).map Expense.id).Nodup := by
  unfold runAddCore
  rcases hr : addExpenseCore d a c es t with err | p
  · exact h
  · rcases addExpenseCore_ok_shape d a c es t p.1 p.2 (by rw [hr]) with ⟨e, he, hid⟩
    simp only [he, List.map_append, List.map_cons, List.map_nil]
    rw [List.nodup_append]
    refine ⟨h, List.nodup_singleton _, ?_⟩
    intro x hx hx2
    have hxe : x = e.id := List.mem_singleton.mp hx2
    rcases List.mem_map.mp hx with ⟨y, hy, hxy⟩
    exact getNextId_not_mem es y hy (hxy.trans (hxe.trans hid))

theorem applyAdds_nodup (reqs : List AddReq) (es : List Expense)
    (h : (es.map Expense.id).Nodup) :
    ((applyAdds reqs es).map Expense.id).Nodup := by
  induction reqs generalizing es with
  | nil => exact h
  | cons r rest ih =>
    exact ih (runAddCore r.description r.amount r.category es r.today)
      (runAddCore_nodup r.description r.amount r.category es r.today h)

theorem findIdxById_eq_none (es : List Expense) (n : Int)
    (h : ∀ e ∈ es, e.id ≠ n) : findIdxById es n = none := by
  induction es with
  | nil => rfl
  | cons e t ih =>
    unfold findIdxById
    rw [if_neg (h e (List.mem_cons_self e t)), ih (fun x hx => h x (List.mem_cons_of_mem e hx))]
    rfl

theorem findFirstById_eq_none (es : List Expense) (n : Int)
    (h : ∀ e ∈ es, e.id ≠ n) : findFirstById es n = none := by
  induction es with
  | nil => rfl
  | cons e t ih =>
    unfold findFirstById
    rw [if_neg (h e (List.mem_cons_self e t))]
    exact ih (fun x hx => h x (List.mem_cons_of_mem e hx))

theorem eraseIdx_not_mem_id (es : List Expense) (n : Int) (i : Nat)
    (hnd : (es.map Expense.id).Nodup) (hfi : findIdxById es n = some i) :
    ∀ e ∈ es.eraseIdx i, e.id ≠ n := by
  induction es generalizing i with
  | nil => cases hfi
  | cons x t ih =>
    unfold findIdxById at hfi
    by_cases hx : x.id = n
    · rw [if_pos hx] at hfi
      have hi : i = 0 := by cases hfi; rfl
      subst hi
      intro e he
      simp only [List.eraseIdx_cons_zero] at he
      have hnotin : x.id ∉ t.map Expense.id := (List.nodup_cons.mp hnd).1
      intro hen
      exact hnotin (List.mem_map.mpr ⟨e, he, hen.trans hx.symm⟩)
    · rw [if_neg hx] at hfi
      rcases hj : findIdxById t n with _ | j
      · rw [hj] at hfi
        cases hfi
      · rw [hj] at hfi
        have hi : i = j + 1 := by cases hfi; rfl
        subst hi
        intro e he
        simp only [List.eraseIdx_cons_succ] at he
        rcases List.mem_cons.mp he with h1 | h1
        · subst h1
          exact hx
        · exact ih j (List.nodup_cons.mp hnd).2 hj e h1

theorem findFirstById_setFirstById (es : List Expense) (n : Int) (e : Expense)
    (h : findFirstById es n = some e) (e2 : Expense) :
    ∃ i, findIdxById es n = some i ∧ e ∈ es ∧ e.id = n ∧
      setFirstById es n e2 = es.take i ++ e2 :: es.drop (i + 1) := by
  induction es with
  | nil => cases h
  | cons x t ih =>
    unfold findFirstById at h
    by_cases hx : x.id = n
    · rw [if_pos hx] at h
      have hxe : x = e := by cases h; rfl
      subst hxe
      refine ⟨0, ?_, List.mem_cons_self x t, hx, ?_⟩
      · unfold findIdxById
        rw [if_pos hx]
      · unfold setFirstById
        rw [if_pos hx]
        simp
    · rw [if_neg hx] at h
      rcases ih h with ⟨j, hj, hmem, hid, hset⟩
      refine ⟨j + 1, ?_, List.mem_cons_of_mem x hmem, hid, ?_⟩
      · unfold findIdxById
        rw [if_neg hx, hj]
        rfl
      · unfold setFirstById
        rw [if_neg hx, hset]
        simp

theorem foldl_add_amounts (l : List Expense) (q : ℚ) :
    l.foldl (fun s e => s + e.amount) q = q + sumAmounts l := by
  induction l generalizing q with
  | nil => simp [sumAmounts]
  | cons e t ih =>
    unfold sumAmounts
    simp only [List.foldl_cons]
    rw [ih (q + e.amount), ih (0 + e.amount)]
    ring

theorem sumAmounts_cons (e : Expense) (t : List Expense) :
    sumAmounts (e :: t) = e.amount + sumAmounts t := by
  show List.foldl (fun s x => s + x.amount) 0 (e :: t) = e.amount + sumAmounts t
  rw [List.foldl_cons, foldl_add_amounts]
  ring

theorem bumpAssoc_snd_sum (acc : List (String × ℚ)) (k : String) (v : ℚ) :
    ((bumpAssoc acc k v).map (fun p => p.2)).sum = (acc.map (fun p => p.2)).sum + v := by
  induction acc with
  | nil => simp [bumpAssoc]
  | cons p rest ih =>
    unfold bumpAssoc
    by_cases hk : p.1 = k
    · rw [if_pos hk]
      simp only [List.map_cons, List.sum_cons]
      ring
    · rw [if_neg hk]
      simp only [List.map_cons, List.sum_cons, ih]
      ring

theorem categoryTotals_foldl_sum (l : List Expense) (acc : List (String × ℚ)) :
    ((l.foldl (fun a e => bumpAssoc a e.category e.amount) acc).map (fun p => p.2)).sum =
      (acc.map (fun p => p.2)).sum + sumAmounts l := by
  induction l generalizing acc with
  | nil => simp [sumAmounts]
  | cons e t ih =>
    simp only [List.foldl_cons]
    rw [ih (bumpAssoc acc e.category e.amount), bumpAssoc_snd_sum, sumAmounts_cons]
    ring

theorem categoryTotals_sum (l : List Expense) :
    ((categoryTotals l).map (fun p => p.2)).sum = sumAmounts l := by
  unfold categoryTotals
  rw [categoryTotals_foldl_sum]
  simp

theorem mem_insertDesc (p q : String × ℚ) (l : List (String × ℚ))
    (h : q ∈ insertDesc p l) : q = p ∨ q ∈ l := by
  induction l with
  | nil =>
    rcases List.mem_singleton.mp h with h1
    exact Or.inl h1
  | cons x t ih =>
    unfold insertDesc at h
    by_cases hc : p.2 < x.2
    · rw [if_pos hc] at h
      rcases List.mem_cons.mp h with h1 | h1
      · exact Or.inr (h1 ▸ List.mem_cons_self x t)
      · rcases ih h1 with h2 | h2
        · exact Or.inl h2
        · exact Or.inr (List.mem_cons_of_mem x h2)
    · rw [if_neg hc] at h
      rcases List.mem_cons.mp h with h1 | h1
      · exact Or.inl h1
      · exact Or.inr h1

theorem pairwise_insertDesc (p : String × ℚ) (l : List (String × ℚ))
    (h : l.Pairwise (fun a b => b.2 ≤ a.2)) :
    (insertDesc p l).Pairwise (fun a b => b.2 ≤ a.2) := by
  induction l with
  | nil => exact List.pairwise_singleton _ p
  | cons x t ih =>
    rcases List.pairwise_cons.mp h with ⟨hx, ht⟩
    unfold insertDesc
    by_cases hc : p.2 < x.2
    · rw [if_pos hc]
      refine List.pairwise_cons.mpr ⟨?_, ih ht⟩
      intro q hq
      rcases mem_insertDesc p q t hq with h1 | h1
      · exact h1 ▸ le_of_lt hc
      · exact hx q h1
    · rw [if_neg hc]
      refine List.pairwise_cons.mpr ⟨?_, h⟩
      intro q hq
      rcases List.mem_cons.mp hq with h1 | h1
      · exact h1 ▸ le_of_not_lt hc
      · exact le_trans (hx q h1) (le_of_not_lt hc)

theorem sortCatDesc_pairwise (l : List (String × ℚ)) :
    (sortCatDesc l).Pairwise (fun a b => b.2 ≤ a.2) := by
  unfold sortCatDesc
  induction l with
  | nil => exact List.Pairwise.nil
  | cons p t ih => exact pairwise_insertDesc p (t.foldr insertDesc []) ih

theorem insertDesc_snd_sum (p : String × ℚ) (l : List (String × ℚ)) :
    ((insertDesc p l).map (fun x => x.2)).sum = p.2 + (l.map (fun x => x.2)).sum := by
  induction l with
  | nil => simp [insertDesc]
  | cons x t ih =>
    unfold insertDesc
    by_cases hc : p.2 < x.2
    · rw [if_pos hc]
      simp only [List.map_cons, List.sum_cons, ih]
      ring
    · rw [if_neg hc]
      simp only [List.map_cons, List.sum_cons]

theorem sortCatDesc_snd_sum (l : List (String × ℚ)) :
    ((sortCatDesc l).map (fun x => x.2)).sum = (l.map (fun x => x.2)).sum := by
  unfold sortCatDesc
  induction l with
  | nil => rfl
  | cons p t ih =>
    simp only [List.foldr_cons, List.map_cons, List.sum_cons]
    rw [insertDesc_snd_sum, ih]

theorem getArgValue_not_mem (l : List String) (flag : String)
    (h : flag ∉ l) : getArgValue l flag = none := by
  induction l with
  | nil => rfl
  | cons x t ih =>
    have hx : x ≠ flag := by
      intro he
      subst he
      exact h (List.mem_cons_self x t)
    cases t with
    | nil => rfl
    | cons y r =>
      unfold getArgValue
      rw [if_neg hx]
      exact ih (fun hm => h (List.mem_cons_of_mem x hm))

theorem getArgValue_trailing (l : List String) (flag : String)
    (h : flag ∉ l) : getArgValue (l ++ [flag]) flag = none := by
  induction l with
  | nil => rfl
  | cons x t ih =>
    have hx : x ≠ flag := by
      intro he
      subst he
      exact h (List.mem_cons_self x t)
    cases t with
    | nil =>
      show getArgValue ([x] ++ [flag]) flag = none
      simp only [List.cons_append, List.nil_append]
      unfold getArgValue
      rw [if_neg hx]
      rfl
    | cons y r =>
      simp only [List.cons_append] at ih ⊢
      unfold getArgValue
      rw [if_neg hx]
      exact ih (fun hm => h (List.mem_cons_of_mem x hm))

theorem applyDescriptionArg_eq (e : Expense) (d : Option String) :
    applyDescriptionArg e d =
      { e with description := if truthyOpt d then jsTrim (d.getD "") else e.description } := by
  cases d with
  | none => simp [applyDescriptionArg, truthyOpt]
  | some s =>
    by_cases hs : s = ""
    · simp [applyDescriptionArg, truthyOpt, hs]
    · simp [applyDescriptionArg, truthyOpt, hs]

theorem applyAmountArg_eq (e : Expense) (a : Option String) (qa : ℚ)
    (h : truthyOpt a = true → validateAmount (a.getD "") = .ok qa) :
    applyAmountArg e a = .ok { e with amount := if truthyOpt a then qa else e.amount } := by
  cases a with
  | none => simp [applyAmountArg, truthyOpt]
  | some s =>
    by_cases hs : s = ""
    · simp [applyAmountArg, truthyOpt, hs]
    · have hv : validateAmount s = .ok qa := by
        have := h (by simp [truthyOpt, hs])
        simpa using this
      simp [applyAmountArg, truthyOpt, hs, hv]

theorem applyCategoryArg_eq (e : Expense) (c : Option String) :
    applyCategoryArg e c =
      { e with category := if truthyOpt c then jsTrim (c.getD "") else e.category } := by
  cases c with
  | none => simp [applyCategoryArg, truthyOpt]
  | some s =>
    by_cases hs : s = ""
    · simp [applyCategoryArg, truthyOpt, hs]
    · simp [applyCategoryArg, truthyOpt, hs]

/-! ## Claim theorems -/

/-- Claim C1: for every sequence of add operations starting from any store,
each newly assigned identifier equals one more than the maximum identifier
present in the store at the time of the add, or 1 when the store is empty;
and identifiers that are unique stay strictly unique across any such
sequence (failed adds leave the store unchanged). -/
theorem add_assigns_max_plus_one_and_ids_stay_unique :
    (∀ (d a c : Option String) (es : List Expense) (t : String)
        (es2 : List Expense) (logs : List String),
        addExpenseCore d a c es t = .ok (es2, logs) →
        ∃ e : Expense, es2 = es ++ [e] ∧
          e.id = (if es = [] then 1 else maxIdOf es + 1)) ∧
    (∀ (reqs : List AddReq) (es : List Expense),
        (es.map Expense.id).Nodup →
        ((applyAdds reqs es).map Expense.id).Nodup) := by
  constructor
  · intro d a c es t es2 logs h
    rcases addExpenseCore_ok_shape d a c es t es2 logs h with ⟨e, he, hid⟩
    exact ⟨e, he, hid.trans (getNextId_eq es)⟩
  · exact fun reqs es h => applyAdds_nodup reqs es h

/-- Witness for C1 at concrete inputs: one successful add on the empty
store gets identifier 1, and two adds on the empty store keep the
identifier list duplicate-free. -/
theorem add_assigns_max_plus_one_and_ids_stay_unique_witness :
    (∃ e : Expense,
        ([⟨1, "2026-10-11", "Lunch", 20, "General"⟩] : List Expense) =
          ([] : List Expense) ++ [e] ∧
        e.id = (if ([] : List Expense) = [] then 1 else maxIdOf [] + 1)) ∧
    ((applyAdds [⟨some "A", some "5", none, "2026-10-11"⟩,
        ⟨some "B", some "7", none, "2026-10-12"⟩] []).map Expense.id).Nodup :=
  ⟨add_assigns_max_plus_one_and_ids_stay_unique.1 (some "Lunch") (some "20")
      none [] "2026-10-11" [⟨1, "2026-10-11", "Lunch", 20, "General"⟩]
      ["Expense added successfully (ID: 1)"] (by with_unfolding_all rfl),
   add_assigns_max_plus_one_and_ids_stay_unique.2
      [⟨some "A", some "5", none, "2026-10-11"⟩,
       ⟨some "B", some "7", none, "2026-10-12"⟩] [] (by decide)⟩

/-- Claim C2 counterexample: two non-numeric amount arguments on which add
does not fail with the InvalidAmount error.  The empty-string amount (which
`parseFloat` cannot parse) is reported as a missing amount, and any amount
combined with an absent description is reported as a missing description. -/
theorem add_invalid_amount_counterexample :
    jsParseFloat "" = none ∧
    addExpenseCore (some "Lunch") (some "") none [] "2026-01-01" =
      .error (.missingArg "--amount") ∧
    jsParseFloat "abc" = none ∧
    addExpenseCore none (some "abc") none [] "2026-01-01" =
      .error (.missingArg "--description") ∧
    JsError.missingArg "--amount" ≠ JsError.invalidAmount :=
  ⟨by with_unfolding_all rfl, by with_unfolding_all rfl,
   by with_unfolding_all rfl, by with_unfolding_all rfl, by decide⟩

/-- Claim C2 (amended): for every store and every add invocation whose
description argument is supplied and non-empty, and whose amount argument
is a non-empty string that either does not parse or parses to a value ≤ 0,
the add fails with the InvalidAmount error and the persisted store is left
unchanged. -/
theorem add_invalid_amount_fails (es : List Expense) (dsc a : String)
    (c : Option String) (t : String) (hd : dsc ≠ "") (ha : a ≠ "")
    (hbad : jsParseFloat a = none ∨ ∃ q, jsParseFloat a = some q ∧ q ≤ 0) :
    addExpenseCore (some dsc) (some a) c es t = .error .invalidAmount ∧
    runAddCore (some dsc) (some a) c es t = es := by
  have hv : validateAmount a = .error .invalidAmount := by
    unfold validateAmount
    rcases hbad with h1 | ⟨q, hq, hql⟩
    · rw [h1]
    · rw [hq]
      simp [hql]
  have h1 : addExpenseCore (some dsc) (some a) c es t = .error .invalidAmount := by
    simp [addExpenseCore, hd, ha, hv]
  exact ⟨h1, by simp [runAddCore, h1]⟩

/-- Witness for the amended C2: a one-record store, a supplied description
and the unparsable amount "abc". -/
theorem add_invalid_amount_fails_witness :
    addExpenseCore (some "Lunch") (some "abc") none
        [⟨1, "2026-01-01", "Tea", 3, "General"⟩] "2026-01-02" =
      .error .invalidAmount ∧
    runAddCore (some "Lunch") (some "abc") none
        [⟨1, "2026-01-01", "Tea", 3, "General"⟩] "2026-01-02" =
      [⟨1, "2026-01-01", "Tea", 3, "General"⟩] :=
  add_invalid_amount_fails [⟨1, "2026-01-01", "Tea", 3, "General"⟩] "Lunch"
    "abc" none "2026-01-02" (by decide) (by decide)
    (Or.inl (by with_unfolding_all rfl))

/-- Claim C3 counterexample: the empty-string identifier argument matches
no record (trivially, on the empty store), yet update reports a missing id
rather than the NotFound error. -/
theorem update_notfound_counterexample :
    updateExpenseCore (some "") (some "x") none none [] =
      .error (.missingArg "--id") ∧
    JsError.missingArg "--id" ≠ JsError.notFound "" :=
  ⟨by with_unfolding_all rfl, by decide⟩

/-- Claim C3 (amended): for every store and every non-empty identifier
argument that matches no record (under the code's `parseInt` comparison),
update fails with the NotFound error and the persisted store is left
unchanged. -/
theorem update_notfound_fails (es : List Expense) (s : String)
    (d a c : Option String) (hs : s ≠ "")
    (hno : ∀ n, jsParseInt s = some n → ∀ e ∈ es, e.id ≠ n) :
    updateExpenseCore (some s) d a c es = .error (.notFound s) ∧
    runUpdateCore (some s) d a c es = es := by
  have h1 : updateExpenseCore (some s) d a c es = .error (.notFound s) := by
    rcases hp : jsParseInt s with _ | n
    · simp [updateExpenseCore, hs, hp]
    · have hfind : findFirstById es n = none :=
        findFirstById_eq_none es n (hno n hp)
      simp [updateExpenseCore, hs, hp, hfind]
  exact ⟨h1, by simp [runUpdateCore, h1]⟩

/-- Witness for the amended C3: identifier "99" against a store whose only
record has identifier 1. -/
theorem update_notfound_fails_witness :
    updateExpenseCore (some "99") none none none
        [⟨1, "2026-01-01", "Lunch", 5, "Food"⟩] =
      .error (.notFound "99") ∧
    runUpdateCore (some "99") none none none
        [⟨1, "2026-01-01", "Lunch", 5, "Food"⟩] =
      [⟨1, "2026-01-01", "Lunch", 5, "Food"⟩] :=
  update_notfound_fails [⟨1, "2026-01-01", "Lunch", 5, "Food"⟩] "99"
    none none none (by decide)
    (by
      intro n hn
      rw [show jsParseInt "99" = some 99 from rfl] at hn
      injection hn with h2
      subst h2
      decide)

/-- Claim C4: on a store with unique identifiers (the documented store
invariant) containing a record matching the requested identifier, delete
removes exactly the first matching record — the result is the records
before it followed by the records after it — and a second delete with the
same identifier argument on the resulting store fails with the NotFound
error. -/
theorem delete_first_match_then_notfound (es : List Expense) (s : String)
    (n : Int) (i : Nat) (hs : s ≠ "") (hp : jsParseInt s = some n)
    (hnd : (es.map Expense.id).Nodup) (hfi : findIdxById es n = some i) :
    deleteExpenseCore (some s) es =
      .ok (es.take i ++ es.drop (i + 1), ["Expense deleted successfully"]) ∧
    deleteExpenseCore (some s) (es.eraseIdx i) = .error (.notFound s) := by
  constructor
  · have herase : es.eraseIdx i = es.take i ++ es.drop (i + 1) :=
      List.eraseIdx_eq_take_drop_succ es i
    simp [deleteExpenseCore, hs, hp, hfi, herase]
  · have hnone : findIdxById (es.eraseIdx i) n = none :=
      findIdxById_eq_none _ n (eraseIdx_not_mem_id es n i hnd hfi)
    simp [deleteExpenseCore, hs, hp, hnone]

/-- Witness for C4: deleting identifier 1 from a two-record store removes
the first record, and deleting 1 again reports NotFound. -/
theorem delete_first_match_then_notfound_witness :
    deleteExpenseCore (some "1")
        [⟨1, "2026-01-01", "Lunch", 5, "Food"⟩,
         ⟨2, "2026-01-02", "Tea", 3, "Drink"⟩] =
      .ok (([⟨1, "2026-01-01", "Lunch", 5, "Food"⟩,
             ⟨2, "2026-01-02", "Tea", 3, "Drink"⟩] : List Expense).take 0 ++
           ([⟨1, "2026-01-01", "Lunch", 5, "Food"⟩,
             ⟨2, "2026-01-02", "Tea", 3, "Drink"⟩] : List Expense).drop 1,
           ["Expense deleted successfully"]) ∧
    deleteExpenseCore (some "1")
        (([⟨1, "2026-01-01", "Lunch", 5, "Food"⟩,
           ⟨2, "2026-01-02", "Tea", 3, "Drink"⟩] : List Expense).eraseIdx 0) =
      .error (.notFound "1") :=
  delete_first_match_then_notfound
    [⟨1, "2026-01-01", "Lunch", 5, "Food"⟩, ⟨2, "2026-01-02", "Tea", 3, "Drink"⟩]
    "1" 1 0 (by decide) (by with_unfolding_all rfl) (by decide)
    (by with_unfolding_all rfl)

/-- Claim C5 counterexample: the description argument is supplied as the
empty string, yet update leaves the record's description unchanged
("Lunch", not the supplied empty string), because the handler tests JS
truthiness rather than presence. -/
theorem update_fields_counterexample :
    updateExpenseCore (some "1") (some "") none none
        [⟨1, "2026-01-01", "Lunch", 5, "Food"⟩] =
      .ok ([⟨1, "2026-01-01", "Lunch", 5, "Food"⟩],
           ["Expense updated successfully (ID: 1)"]) ∧
    ("Lunch" : String) ≠ "" :=
  ⟨by with_unfolding_all rfl, by decide⟩

/-- Claim C5 (amended): for every store, every existing identifier and
every subset of the description/amount/category arguments supplied with
non-empty (truthy) values — the amount, when supplied, parsing to a valid
positive number — update overwrites exactly the truthy-supplied fields of
the first matched record, leaves its other fields (identifier and date
included) unchanged, and leaves all records before and after it
unchanged. -/
theorem update_overwrites_exactly_supplied_fields (es : List Expense)
    (s : String) (n : Int) (e : Expense) (d a c : Option String) (qa : ℚ)
    (hs : s ≠ "") (hp : jsParseInt s = some n)
    (hfind : findFirstById es n = some e)
    (hva : truthyOpt a = true → validateAmount (a.getD "") = .ok qa) :
    ∃ i, findIdxById es n = some i ∧
      updateExpenseCore (some s) d a c es =
        .ok (es.take i ++
             { e with
               description := if truthyOpt d then jsTrim (d.getD "") else e.description,
               amount := if truthyOpt a then qa else e.amount,
               category := if truthyOpt c then jsTrim (c.getD "") else e.category } ::
             es.drop (i + 1),
             ["Expense updated successfully (ID: " ++ s ++ ")"]) := by
  have h1 : applyAmountArg (applyDescriptionArg e d) a =
      .ok { e with
            description := if truthyOpt d then jsTrim (d.getD "") else e.description,
            amount := if truthyOpt a then qa else e.amount } := by
    rw [applyDescriptionArg_eq, applyAmountArg_eq _ _ qa hva]
  have h2 : applyCategoryArg
      { e with
        description := if truthyOpt d then jsTrim (d.getD "") else e.description,
        amount := if truthyOpt a then qa else e.amount } c =
      { e with
        description := if truthyOpt d then jsTrim (d.getD "") else e.description,
        amount := if truthyOpt a then qa else e.amount,
        category := if truthyOpt c then jsTrim (c.getD "") else e.category } := by
    rw [applyCategoryArg_eq]
  rcases findFirstById_setFirstById es n e hfind
      { e with
        description := if truthyOpt d then jsTrim (d.getD "") else e.description,
        amount := if truthyOpt a then qa else e.amount,
        category := if truthyOpt c then jsTrim (c.getD "") else e.category } with
    ⟨i, hidx, hmem, hid, hset⟩
  refine ⟨i, hidx, ?_⟩
  rw [show updateExpenseCore (some s) d a c es =
      (if s = "" then .error (.missingArg "--id")
       else
         match jsParseInt s with
         | none => .error (.notFound s)
         | some n =>
           match findFirstById es n with
           | none => .error (.notFound s)
           | some e =>
             match applyAmountArg (applyDescriptionArg e d) a with
             | .error err => .error err
             | .ok e2 =>
               .ok (setFirstById es n (applyCategoryArg e2 c),
                    ["Expense updated successfully (ID: " ++ s ++ ")"]))
      from rfl]
  simp only [if_neg hs, hp, hfind, h1, h2, hset]

/-- Witness for the amended C5: update record 2 of a two-record store,
supplying a new description and category but no amount. -/
theorem update_overwrites_exactly_supplied_fields_witness :
    ∃ i, findIdxById
        [⟨1, "2026-01-01", "Lunch", 5, "Food"⟩,
         ⟨2, "2026-01-02", "Tea", 3, "Drink"⟩] 2 = some i ∧
      updateExpenseCore (some "2") (some "Brunch") none (some "Misc")
          [⟨1, "2026-01-01", "Lunch", 5, "Food"⟩,
           ⟨2, "2026-01-02", "Tea", 3, "Drink"⟩] =
        .ok (([⟨1, "2026-01-01", "Lunch", 5, "Food"⟩,
               ⟨2, "2026-01-02", "Tea", 3, "Drink"⟩] : List Expense).take i ++
             { (⟨2, "2026-01-02", "Tea", 3, "Drink"⟩ : Expense) with
               description :=
                 if truthyOpt (some "Brunch") then jsTrim ((some "Brunch").getD "")
                 else "Tea",
               amount := if truthyOpt none then 0 else (3 : ℚ),
               category :=
                 if truthyOpt (some "Misc") then jsTrim ((some "Misc").getD "")
                 else "Drink" } ::
             ([⟨1, "2026-01-01", "Lunch", 5, "Food"⟩,
               ⟨2, "2026-01-02", "Tea", 3, "Drink"⟩] : List Expense).drop (i + 1),
             ["Expense updated successfully (ID: " ++ "2" ++ ")"]) :=
  update_overwrites_exactly_supplied_fields
    [⟨1, "2026-01-01", "Lunch", 5, "Food"⟩, ⟨2, "2026-01-02", "Tea", 3, "Drink"⟩]
    "2" 2 ⟨2, "2026-01-02", "Tea", 3, "Drink"⟩ (some "Brunch") none (some "Misc")
    0 (by decide) (by with_unfolding_all rfl) (by with_unfolding_all rfl)
    (fun h => absurd h (by decide))

/-- Claim C6 counterexample: with the empty-string category argument the
filter is skipped entirely, so a store whose only record has category
"Food" — no record matching "" — is printed as a full table instead of
the "No expenses found" message the claim requires. -/
theorem list_category_counterexample :
    ([⟨1, "2026-01-01", "Lunch", 5, "Food"⟩] : List Expense).filter
        (fun e => jsToLower e.category == jsToLower "") = [] ∧
    listExpensesCore (some "") [⟨1, "2026-01-01", "Lunch", 5, "Food"⟩] =
      listHeader1 :: listHeader2 ::
        [expenseRow ⟨1, "2026-01-01", "Lunch", 5, "Food"⟩] ∧
    listExpensesCore (some "") [⟨1, "2026-01-01", "Lunch", 5, "Food"⟩] ≠
      ["No expenses found"] := by
  refine ⟨by with_unfolding_all rfl, by with_unfolding_all rfl, ?_⟩
  rw [show listExpensesCore (some "") [⟨1, "2026-01-01", "Lunch", 5, "Food"⟩] =
      listHeader1 :: listHeader2 ::
        [expenseRow ⟨1, "2026-01-01", "Lunch", 5, "Food"⟩]
      from by with_unfolding_all rfl]
  intro hcontra
  have hh : listHeader1 = "No expenses found" := by
    injection hcontra
  exact absurd hh (by decide)

/-- Claim C6 (amended): for every store and every non-empty category
argument, list displays exactly the records whose category equals the
argument case-insensitively, in load order (the filtered list is a sublist
of the store), and prints the distinct "No expenses found" message with no
table exactly when that subset is empty. -/
theorem list_filters_case_insensitive (es : List Expense) (c : String)
    (hc : c ≠ "") :
    (es.filter (fun e => jsToLower e.category == jsToLower c) = [] →
      listExpensesCore (some c) es = ["No expenses found"]) ∧
    (es.filter (fun e => jsToLower e.category == jsToLower c) ≠ [] →
      listExpensesCore (some c) es =
        listHeader1 :: listHeader2 ::
          (es.filter (fun e => jsToLower e.category == jsToLower c)).map expenseRow) ∧
    (es.filter (fun e => jsToLower e.category == jsToLower c)).Sublist es ∧
    (∀ e, e ∈ es.filter (fun e => jsToLower e.category == jsToLower c) ↔
      e ∈ es ∧ jsToLower e.category = jsToLower c) := by
  refine ⟨?_, ?_, List.filter_sublist es, ?_⟩
  · intro hf
    simp [listExpensesCore, hc, hf]
  · intro hf
    simp [listExpensesCore, hc, hf]
  · intro e
    rw [List.mem_filter]
    simp

/-- Witness for the amended C6: filtering a two-record store by "food"
(case-insensitive match of "Food") shows exactly the matching record, the
filtered set is a sublist of the store, and the first record satisfies the
membership characterization. -/
theorem list_filters_case_insensitive_witness :
    listExpensesCore (some "food")
        [⟨1, "2026-01-01", "Lunch", 5, "Food"⟩,
         ⟨2, "2026-01-02", "Tea", 3, "Drink"⟩] =
      listHeader1 :: listHeader2 ::
        (([⟨1, "2026-01-01", "Lunch", 5, "Food"⟩,
           ⟨2, "2026-01-02", "Tea", 3, "Drink"⟩] : List Expense).filter
          (fun e => jsToLower e.category == jsToLower "food")).map expenseRow ∧
    (([⟨1, "2026-01-01", "Lunch", 5, "Food"⟩,
       ⟨2, "2026-01-02", "Tea", 3, "Drink"⟩] : List Expense).filter
        (fun e => jsToLower e.category == jsToLower "food")).Sublist
      [⟨1, "2026-01-01", "Lunch", 5, "Food"⟩,
       ⟨2, "2026-01-02", "Tea", 3, "Drink"⟩] ∧
    ((⟨1, "2026-01-01", "Lunch", 5, "Food"⟩ : Expense) ∈
        ([⟨1, "2026-01-01", "Lunch", 5, "Food"⟩,
          ⟨2, "2026-01-02", "Tea", 3, "Drink"⟩] : List Expense).filter
          (fun e => jsToLower e.category == jsToLower "food") ↔
      (⟨1, "2026-01-01", "Lunch", 5, "Food"⟩ : Expense) ∈
          ([⟨1, "2026-01-01", "Lunch", 5, "Food"⟩,
            ⟨2, "2026-01-02", "Tea", 3, "Drink"⟩] : List Expense) ∧
        jsToLower (⟨1, "2026-01-01", "Lunch", 5, "Food"⟩ : Expense).category =
          jsToLower "food") :=
  ⟨(list_filters_case_insensitive
      [⟨1, "2026-01-01", "Lunch", 5, "Food"⟩,
       ⟨2, "2026-01-02", "Tea", 3, "Drink"⟩] "food" (by decide)).2.1
      (by with_unfolding_all decide),
   (list_filters_case_insensitive
      [⟨1, "2026-01-01", "Lunch", 5, "Food"⟩,
       ⟨2, "2026-01-02", "Tea", 3, "Drink"⟩] "food" (by decide)).2.2.1,
   (list_filters_case_insensitive
      [⟨1, "2026-01-01", "Lunch", 5, "Food"⟩,
       ⟨2, "2026-01-02", "Tea", 3, "Drink"⟩] "food" (by decide)).2.2.2
      ⟨1, "2026-01-01", "Lunch", 5, "Food"⟩⟩

/-- Claim C7: when summary runs with no category filter and a non-empty
result set, its output is the total line followed by a per-category
breakdown whose subtotals are sorted descending and sum to the printed
overall total; and with a valid month filter the result set is exactly the
records whose date falls in the current year and that month. -/
theorem summary_breakdown_and_month_filter :
    (∀ (label : String) (f : List Expense), f ≠ [] →
      noCatTail label f =
        (label ++ ": " ++ formatCurrency (sumAmounts f)) ::
          "\nBreakdown by category:" ::
          (sortCatDesc (categoryTotals f)).map
            (fun p => "  " ++ p.1 ++ ": " ++ formatCurrency p.2) ∧
      (sortCatDesc (categoryTotals f)).Pairwise (fun p q => q.2 ≤ p.2) ∧
      ((sortCatDesc (categoryTotals f)).map (fun p => p.2)).sum = sumAmounts f) ∧
    (∀ (es : List Expense) (y : Int),
      showSummaryCore none none es y = .ok (noCatTail "Total expenses" es)) ∧
    (∀ (es : List Expense) (y : Int) (mo : String) (n : Int),
      mo ≠ "" → jsParseInt mo = some n → 1 ≤ n → n ≤ 12 →
      showSummaryCore (some mo) none es y =
        .ok (noCatTail ("Total expenses for " ++ monthNames.getD (n - 1).toNat "")
              (es.filter (fun e => dateMatchesMonth e y n)))) := by
  refine ⟨?_, ?_, ?_⟩
  · intro label f hf
    refine ⟨?_, sortCatDesc_pairwise (categoryTotals f), ?_⟩
    · simp [noCatTail, hf]
    · rw [sortCatDesc_snd_sum, categoryTotals_sum]
  · intro es y
    simp [showSummaryCore, summaryTail]
  · intro es y mo n hmo hp h1 h12
    have hrange : (decide (n < 1) || decide (12 < n)) = false := by
      simp only [Bool.or_eq_false_iff, decide_eq_false_iff_not, not_lt]
      exact ⟨h1, h12⟩
    simp [showSummaryCore, summaryTail, hmo, hp, hrange]

/-- Witness for C7: a three-record store with two categories and the month
filter "8" over an August/July store in year 2026. -/
theorem summary_breakdown_and_month_filter_witness :
    (noCatTail "Total expenses"
        [⟨1, "2026-01-01", "Lunch", 5, "Food"⟩,
         ⟨2, "2026-01-02", "Tea", 3, "Drink"⟩,
         ⟨3, "2026-01-03", "Bus", 4, "Food"⟩] =
      ("Total expenses" ++ ": " ++
          formatCurrency (sumAmounts
            [⟨1, "2026-01-01", "Lunch", 5, "Food"⟩,
             ⟨2, "2026-01-02", "Tea", 3, "Drink"⟩,
             ⟨3, "2026-01-03", "Bus", 4, "Food"⟩])) ::
        "\nBreakdown by category:" ::
        (sortCatDesc (categoryTotals
          [⟨1, "2026-01-01", "Lunch", 5, "Food"⟩,
           ⟨2, "2026-01-02", "Tea", 3, "Drink"⟩,
           ⟨3, "2026-01-03", "Bus", 4, "Food"⟩])).map
          (fun p => "  " ++ p.1 ++ ": " ++ formatCurrency p.2) ∧
      (sortCatDesc (categoryTotals
        [⟨1, "2026-01-01", "Lunch", 5, "Food"⟩,
         ⟨2, "2026-01-02", "Tea", 3, "Drink"⟩,
         ⟨3, "2026-01-03", "Bus", 4, "Food"⟩])).Pairwise
        (fun p q => q.2 ≤ p.2) ∧
      ((sortCatDesc (categoryTotals
        [⟨1, "2026-01-01", "Lunch", 5, "Food"⟩,
         ⟨2, "2026-01-02", "Tea", 3, "Drink"⟩,
         ⟨3, "2026-01-03", "Bus", 4, "Food"⟩])).map (fun p => p.2)).sum =
        sumAmounts
          [⟨1, "2026-01-01", "Lunch", 5, "Food"⟩,
           ⟨2, "2026-01-02", "Tea", 3, "Drink"⟩,
           ⟨3, "2026-01-03", "Bus", 4, "Food"⟩]) ∧
    showSummaryCore (some "8") none
        [⟨1, "2026-08-01", "Lunch", 5, "Food"⟩,
         ⟨2, "2026-07-02", "Tea", 3, "Drink"⟩] 2026 =
      .ok (noCatTail ("Total expenses for " ++ monthNames.getD ((8 : Int) - 1).toNat "")
            (([⟨1, "2026-08-01", "Lunch", 5, "Food"⟩,
               ⟨2, "2026-07-02", "Tea", 3, "Drink"⟩] : List Expense).filter
              (fun e => dateMatchesMonth e 2026 8))) :=
  ⟨summary_breakdown_and_month_filter.1 "Total expenses"
      [⟨1, "2026-01-01", "Lunch", 5, "Food"⟩,
       ⟨2, "2026-01-02", "Tea", 3, "Drink"⟩,
       ⟨3, "2026-01-03", "Bus", 4, "Food"⟩] (by decide),
   summary_breakdown_and_month_filter.2.2
      [⟨1, "2026-08-01", "Lunch", 5, "Food"⟩,
       ⟨2, "2026-07-02", "Tea", 3, "Drink"⟩] 2026 "8" 8 (by decide) rfl
      (by decide) (by decide)⟩

/-- Claim C8 counterexample: the empty-string month argument does not parse
as an integer in [1,12], yet summary ignores it entirely and succeeds, and
budget reports the combined missing-argument error instead of
InvalidMonth. -/
theorem month_validation_counterexample :
    showSummaryCore (some "") none [] 2026 = .ok ["Total expenses: $0"] ∧
    setBudgetCore (some "") (some "50") [] 2026 [] =
      .error .missingMonthAmount ∧
    JsError.missingMonthAmount ≠ JsError.invalidMonth :=
  ⟨by with_unfolding_all rfl, by with_unfolding_all rfl, by decide⟩

/-- Claim C8 (amended): every non-empty month argument given to summary —
and to budget together with a non-empty amount argument — that does not
parse (by the code's prefix-integer parse) to an integer in [1,12] makes
the operation fail with the InvalidMonth error. -/
theorem month_validation_rejects (mo : String) (hmo : mo ≠ "")
    (hbad : jsParseInt mo = none ∨
      ∃ n, jsParseInt mo = some n ∧ (n < 1 ∨ 12 < n)) :
    (∀ (cat : Option String) (es : List Expense) (y : Int),
        showSummaryCore (some mo) cat es y = .error .invalidMonth) ∧
    (∀ (a : String), a ≠ "" →
      ∀ (b : List (String × ℚ)) (y : Int) (es : List Expense),
        setBudgetCore (some mo) (some a) b y es = .error .invalidMonth) := by
  constructor
  · intro cat es y
    rcases hbad with h1 | ⟨n, hn, hr⟩
    · simp [showSummaryCore, hmo, h1]
    · have hrange : (decide (n < 1) || decide (12 < n)) = true := by
        rcases hr with h | h
        · simp [h]
        · simp [h]
      simp [showSummaryCore, hmo, hn, hrange]
  · intro a ha b y es
    have hta : (mo != "") = true := by simp [hmo]
    have htb : (a != "") = true := by simp [ha]
    rcases hbad with h1 | ⟨n, hn, hr⟩
    · simp [setBudgetCore, hta, htb, h1]
    · have hrange : (decide (n < 1) || decide (12 < n)) = true := by
        rcases hr with h | h
        · simp [h]
        · simp [h]
      simp [setBudgetCore, hta, htb, hn, hrange]

/-- Witness for the amended C8: the out-of-range month "13" is rejected by
both summary and budget. -/
theorem month_validation_rejects_witness :
    showSummaryCore (some "13") none [] 2026 = .error .invalidMonth ∧
    setBudgetCore (some "13") (some "50") [] 2026 [] = .error .invalidMonth :=
  ⟨(month_validation_rejects "13" (by decide)
      (Or.inr ⟨13, rfl, Or.inr (by decide)⟩)).1 none [] 2026,
   (month_validation_rejects "13" (by decide)
      (Or.inr ⟨13, rfl, Or.inr (by decide)⟩)).2 "50" (by decide) [] 2026 []⟩

/-- Claim C9: export on an empty store prints "No expenses to export" and
performs no file write; on a non-empty store it writes the header line
followed by exactly one comma-separated row per record in store order,
with the description wrapped in quotes and nothing else escaped. -/
theorem export_csv_shape (file : Option String) (es : List Expense) :
    (es = [] → exportToCsvCore file es = (["No expenses to export"], none)) ∧
    (es ≠ [] →
      exportToCsvCore file es =
        (["Expenses exported to " ++ defaultedFilename file],
         some (defaultedFilename file,
           "ID,Date,Description,Amount,Category\n" ++
             joinNl (es.map (fun e =>
               toString e.id ++ "," ++ e.date ++ ",\"" ++ e.description ++
                 "\"," ++ ratToString e.amount ++ "," ++ e.category))))) := by
  constructor
  · intro he
    subst he
    simp [exportToCsvCore]
  · intro he
    simp only [exportToCsvCore, defaultedFilename, csvHeader, csvRow,
      List.isEmpty_eq_true, he, if_false]
    rfl

/-- Witness for C9: the empty store writes nothing, and a one-record store
produces the header plus one quoted-description row. -/
theorem export_csv_shape_witness :
    exportToCsvCore (some "out.csv") ([] : List Expense) =
      (["No expenses to export"], none) ∧
    exportToCsvCore (some "out.csv")
        [⟨1, "2026-01-01", "Lunch", 5, "Food"⟩] =
      (["Expenses exported to " ++ defaultedFilename (some "out.csv")],
       some (defaultedFilename (some "out.csv"),
         "ID,Date,Description,Amount,Category\n" ++
           joinNl (([⟨1, "2026-01-01", "Lunch", 5, "Food"⟩] : List Expense).map
             (fun e =>
               toString e.id ++ "," ++ e.date ++ ",\"" ++ e.description ++
                 "\"," ++ ratToString e.amount ++ "," ++ e.category)))) :=
  ⟨(export_csv_shape (some "out.csv") []).1 rfl,
   (export_csv_shape (some "out.csv")
      [⟨1, "2026-01-01", "Lunch", 5, "Food"⟩]).2 (by decide)⟩

/-- Claim C10: a flag whose only occurrence is the final token extracts to
null exactly as an absent flag does; hence add with a trailing
"--description" fails with the same missing-description error as add
without it, and list with a trailing "--category" behaves exactly as list
without it. -/
theorem trailing_flag_treated_as_absent :
    (∀ (l : List String) (flag : String), flag ∉ l →
      getArgValue (l ++ [flag]) flag = none ∧ getArgValue l flag = none) ∧
    (∀ (l : List String) (es : List Expense) (t : String),
      "--description" ∉ l →
      addExpense (l ++ ["--description"]) es t =
        .error (.missingArg "--description") ∧
      addExpense l es t = .error (.missingArg "--description")) ∧
    (∀ (l : List String) (es : List Expense),
      "--category" ∉ l →
      listExpenses (l ++ ["--category"]) es = listExpenses l es) := by
  refine ⟨?_, ?_, ?_⟩
  · intro l flag h
    exact ⟨getArgValue_trailing l flag h, getArgValue_not_mem l flag h⟩
  · intro l es t h
    constructor
    · rw [addExpense, getArgValue_trailing l _ h]
      simp [addExpenseCore]
    · rw [addExpense, getArgValue_not_mem l _ h]
      simp [addExpenseCore]
  · intro l es h
    rw [listExpenses, listExpenses, getArgValue_trailing l _ h,
      getArgValue_not_mem l _ h]

/-- Witness for C10 at concrete inputs: the argument list of
"add --amount 5" followed by a bare trailing "--description", and the bare
"list --category". -/
theorem trailing_flag_treated_as_absent_witness :
    (getArgValue (["add", "--amount", "5"] ++ ["--description"]) "--description" =
        none ∧
      getArgValue ["add", "--amount", "5"] "--description" = none) ∧
    (addExpense (["add", "--amount", "5"] ++ ["--description"]) [] "2026-01-01" =
        .error (.missingArg "--description") ∧
      addExpense ["add", "--amount", "5"] [] "2026-01-01" =
        .error (.missingArg "--description")) ∧
    listExpenses (["list"] ++ ["--category"])
        [⟨1, "2026-01-01", "Lunch", 5, "Food"⟩] =
      listExpenses ["list"] [⟨1, "2026-01-01", "Lunch", 5, "Food"⟩] :=
  ⟨trailing_flag_treated_as_absent.1 ["add", "--amount", "5"] "--description"
      (by decide),
   trailing_flag_treated_as_absent.2.1 ["add", "--amount", "5"] [] "2026-01-01"
      (by decide),
   trailing_flag_treated_as_absent.2.2 ["list"]
      [⟨1, "2026-01-01", "Lunch", 5, "Food"⟩] (by decide)⟩
